import Mathlib

/-!
# tcp-honeypot: effect-trace embedding of `main.go`

Every function of `main.go` that talks to the outside world is embedded as a
pure function that returns the ordered list of effects the Go code performs.
The results of external calls (`cmd.Run()`, `http.Post`, `net.Listen`, the
`select` of the listener loop, `json.Marshal`, `net.SplitHostPort`) are
explicit arguments, so that a theorem quantified over them holds for every
outcome of the environment.
-/

namespace Honeypot

/-! ## Data model -/

/-- Civil-time view of a Go `time.Time` value (the fields that `Format` and
`MarshalJSON` look at). -/
structure Time where
  year : Int
  month : Nat
  day : Nat
  hour : Nat
  minute : Nat
  second : Nat
deriving DecidableEq, Repr

/-- Go `type Alert struct` (main.go:20-24). -/
structure Alert where
  Port : Int
  RemoteIP : String
  Timestamp : Time
deriving DecidableEq, Repr

/-- Go `type AlertConfig struct` (main.go:27-35).  A Go slice is `none` when it
is `nil` and `some xs` otherwise. -/
structure AlertConfig where
  LogToFile : Bool
  PostToServer : Bool
  ServerURL : String
  BanIP : Bool
  BanDuration : Int
  PortsToMonitor : Option (List Int)
  LogFile : String
deriving DecidableEq, Repr

/-- Go `len(s)` of a slice of ints. -/
def len : Option (List Int) → Nat
  | none => 0
  | some xs => xs.length

/-- Elements visited by `for _, port := range s`. -/
def elems : Option (List Int) → List Int
  | none => []
  | some xs => xs

/-- The lines the program hands to the `log` package, one constructor per
`log.Printf` / `log.Println` call site of main.go. -/
inductive LogLine where
  /-- Line main.go:134-136, the alert line written by `sendAlert`. -/
  | alert (ts : Time) (port : Int) (ip : String)
  /-- Line main.go:143. -/
  | failedMarshal (err : String)
  /-- Line main.go:147. -/
  | failedSend (err : String)
  /-- Line main.go:150. -/
  | alertSent (url : String)
  /-- Line main.go:101. -/
  | failedPermanentBan (ip : String) (err : String)
  /-- Line main.go:103. -/
  | permanentlyBanned (ip : String)
  /-- Line main.go:109. -/
  | failedTemporaryBan (ip : String) (err : String)
  /-- Line main.go:111. -/
  | temporarilyBanned (ip : String) (minutes : Int)
  /-- Line main.go:124. -/
  | failedUnban (ip : String) (err : String)
  /-- Line main.go:126. -/
  | unbanned (ip : String)
  /-- Line main.go:179. -/
  | failedListener (port : Int) (err : String)
  /-- Line main.go:184. -/
  | startedListening (port : Int)
  /-- Line main.go:202. -/
  | stoppingListener (port : Int)
  /-- Line main.go:205. -/
  | errorOnPort (port : Int) (err : String)
  /-- Line main.go:209. -/
  | connectionAttempt (port : Int) (remoteAddr : String)
  /-- Line main.go:215. -/
  | failedParse (err : String)
  /-- Line main.go:266. -/
  | startedHoneypot (port : Int)
  /-- Line main.go:268. -/
  | portInUse (port : Int)
deriving DecidableEq, Repr

/-- Observable effects, in program order.  `callSendAlert` and `callBanIP`
mark the entry into the callee; the effects of the callee follow the mark. -/
inductive Effect where
  /-- A line written through the `log` package. -/
  | log (line : LogLine)
  /-- Call `exec.Command(argv...).Run()`. -/
  | exec (argv : List String)
  /-- Call `time.AfterFunc(d, func() { unbanIP(ip) })`, `d` in nanoseconds. -/
  | afterFuncUnban (d : Int) (ip : String)
  /-- Call `http.Post(url, contentType, body)`. -/
  | httpPost (url : String) (contentType : String) (body : String)
  /-- Deferred `resp.Body.Close()`. -/
  | respBodyClose
  /-- Entry into `banIP(ip, duration)` -/
  | callBanIP (ip : String) (duration : Int)
  /-- Entry into `sendAlert(alert, config)` -/
  | callSendAlert (alert : Alert) (config : AlertConfig)
  /-- Call `net.Listen("tcp", addr)` with `addr = ":<port>"`. -/
  | netListen (port : Int)
  /-- Call `ln.Close()` or `listener.Close()`. -/
  | listenerClose
  /-- Call `conn.Close()`. -/
  | connClose
  /-- Call `wg.Add(n)`. -/
  | wgAdd (n : Nat)
  /-- Call `wg.Done()`. -/
  | wgDone
  /-- Statement `go startPortListener(port, &wg, stopChan, config)`. -/
  | goStartPortListener (port : Int)
deriving DecidableEq, Repr

/-! ## Machine arithmetic of `time.Duration` -/

/-- Two-complement wrap of an integer into the `int64` range. -/
def wrapInt64 (x : Int) : Int :=
  (x + 2 ^ 63) % 2 ^ 64 - 2 ^ 63

/-- Largest `int64`. -/
def maxInt64 : Int := 2 ^ 63 - 1

/-- Go `time.Minute`, in nanoseconds. -/
def minuteNs : Int := 60000000000

/-- Go `time.Duration(duration) * time.Minute` (an `int64` product). -/
def minutesToDuration (duration : Int) : Int :=
  wrapInt64 (duration * minuteNs)

/-! ## Ban controller (main.go:95-128) -/

/-- Argument vector of the block command (main.go:99 and main.go:107). -/
def blockArgv (ip : String) : List String :=
  ["iptables", "-A", "INPUT", "-s", ip, "-j", "DROP"]

/-- Argument vector of the unblock command (main.go:122). -/
def unblockArgv (ip : String) : List String :=
  ["iptables", "-D", "INPUT", "-s", ip, "-j", "DROP"]

/-- Go `banIP` (main.go:96-118).  `run` is what `cmd.Run()` returns: `none`
for a nil error, `some e` for the error `e`. -/
def banIP (run : Option String) (ip : String) (duration : Int) : List Effect :=
  if duration = 0 then
    [Effect.exec (blockArgv ip)] ++
      (match run with
       | some err => [Effect.log (LogLine.failedPermanentBan ip err)]
       | none => [Effect.log (LogLine.permanentlyBanned ip)])
  else
    [Effect.exec (blockArgv ip)] ++
      (match run with
       | some err => [Effect.log (LogLine.failedTemporaryBan ip err)]
       | none =>
         [Effect.log (LogLine.temporarilyBanned ip duration),
          Effect.afterFuncUnban (minutesToDuration duration) ip])

/-- Go `unbanIP` (main.go:121-128). -/
def unbanIP (run : Option String) (ip : String) : List Effect :=
  [Effect.exec (unblockArgv ip)] ++
    (match run with
     | some err => [Effect.log (LogLine.failedUnban ip err)]
     | none => [Effect.log (LogLine.unbanned ip)])

/-! ## Alert dispatcher (main.go:130-159) -/

/-- Go `sendAlert` (main.go:131-159).  `marshal` stands for `json.Marshal`,
`post` is the error returned by `http.Post` and `run` the error returned by
the `cmd.Run()` inside `banIP` (`none` for nil); each is consulted only when
the corresponding call is reached.  The deferred `resp.Body.Close()` runs
when the function returns, after the ban. -/
def sendAlert (marshal : Alert → Except String String) (post run : Option String)
    (alert : Alert) (config : AlertConfig) : List Effect :=
  (if config.LogToFile then
      [Effect.log (LogLine.alert alert.Timestamp alert.Port alert.RemoteIP)]
    else []) ++
  (if config.PostToServer && config.ServerURL != "" then
      match marshal alert with
      | Except.error err => [Effect.log (LogLine.failedMarshal err)]
      | Except.ok payload =>
        [Effect.httpPost config.ServerURL "application/json" payload] ++
          (match post with
           | some err => [Effect.log (LogLine.failedSend err)]
           | none => [Effect.log (LogLine.alertSent config.ServerURL)])
    else []) ++
  (if config.BanIP then
      Effect.callBanIP alert.RemoteIP config.BanDuration ::
        banIP run alert.RemoteIP config.BanDuration
    else []) ++
  (if config.PostToServer && config.ServerURL != "" then
      match marshal alert, post with
      | Except.ok _, none => [Effect.respBodyClose]
      | _, _ => []
    else [])

/-! ## Port availability check (main.go:161-170) -/

/-- Go `isPortListening` (main.go:162-170).  `bind` is the error returned by
`net.Listen` (`none` for nil).  Returns the result and the effects. -/
def isPortListening (bind : Option String) (port : Int) : Bool × List Effect :=
  match bind with
  | some _ => (true, [Effect.netListen port])
  | none => (false, [Effect.netListen port, Effect.listenerClose])

/-! ## Listener supervisor (main.go:172-231) -/

/-- One accepted connection together with what the environment answers while
it is handled: the peer address string, the clock reading, and the results of
`http.Post` and of the `cmd.Run()` of `banIP` (used only if those calls are
reached). -/
structure Accepted where
  remoteAddr : String
  now : Time
  post : Option String
  run : Option String
deriving DecidableEq, Repr

/-- The case taken by one execution of the `select` at main.go:200. -/
inductive SelectEvent where
  /-- Case `<-stopChan`. -/
  | stop
  /-- Case `err := <-errChan`. -/
  | acceptError (err : String)
  /-- Case `conn := <-connChan`. -/
  | conn (c : Accepted)
deriving DecidableEq, Repr

/-- The address placed in the alert (main.go:212-217): the host returned by
`net.SplitHostPort`, or the raw string when it returns an error. -/
def alertIP (split : String → Except String (String × String)) (remoteAddr : String) : String :=
  match split remoteAddr with
  | Except.ok (host, _) => host
  | Except.error _ => remoteAddr

/-- The alert built at main.go:220-224. -/
def mkAlert (split : String → Except String (String × String)) (port : Int)
    (c : Accepted) : Alert :=
  { Port := port, RemoteIP := alertIP split c.remoteAddr, Timestamp := c.now }

/-- The `case conn := <-connChan` branch of `startPortListener`
(main.go:207-228). -/
def acceptBranch (marshal : Alert → Except String String)
    (split : String → Except String (String × String))
    (port : Int) (config : AlertConfig) (c : Accepted) : List Effect :=
  [Effect.log (LogLine.connectionAttempt port c.remoteAddr)] ++
  (match split c.remoteAddr with
   | Except.ok _ => []
   | Except.error err => [Effect.log (LogLine.failedParse err)]) ++
  [Effect.callSendAlert (mkAlert split port c) config] ++
  sendAlert marshal c.post c.run (mkAlert split port c) config ++
  [Effect.connClose]

/-- Effects of a run of a function and whether the function returned.
`returned = false` means the events supplied ran out while the function was
blocked, so the trace is the initial part performed so far. -/
structure Run where
  trace : List Effect
  returned : Bool
deriving DecidableEq, Repr

/-- The `for { ... select ... }` loop of `startPortListener`
(main.go:186-230), driven by the sequence of `select` outcomes. -/
def listenLoop (marshal : Alert → Except String String)
    (split : String → Except String (String × String))
    (port : Int) (config : AlertConfig) : List SelectEvent → Run
  | [] => { trace := [], returned := false }
  | SelectEvent.stop :: _ =>
    { trace := [Effect.log (LogLine.stoppingListener port)], returned := true }
  | SelectEvent.acceptError err :: _ =>
    { trace := [Effect.log (LogLine.errorOnPort port err)], returned := true }
  | SelectEvent.conn c :: rest =>
    { trace := acceptBranch marshal split port config c ++
        (listenLoop marshal split port config rest).trace,
      returned := (listenLoop marshal split port config rest).returned }

/-- Go `startPortListener` (main.go:173-231).  `bind` is the error returned by
`net.Listen`.  The deferred calls run in reverse order of registration when
the function returns: `listener.Close()` (if registered), then `wg.Done()`. -/
def startPortListener (marshal : Alert → Except String String)
    (split : String → Except String (String × String))
    (bind : Option String) (events : List SelectEvent)
    (port : Int) (config : AlertConfig) : Run :=
  match bind with
  | some err =>
    { trace := [Effect.netListen port, Effect.log (LogLine.failedListener port err),
                Effect.wgDone],
      returned := true }
  | none =>
    { trace := [Effect.netListen port, Effect.log (LogLine.startedListening port)] ++
        (listenLoop marshal split port config events).trace ++
        (if (listenLoop marshal split port config events).returned then
            [Effect.listenerClose, Effect.wgDone]
          else []),
      returned := (listenLoop marshal split port config events).returned }

/-! ## Orchestrator start-up loop (main.go:261-270) -/

/-- The loop `for _, port := range config.PortsToMonitor` of `main`
(main.go:262-270).  `checks i` is the error returned by the `net.Listen` of
the availability check number `i` (counting from `i`, the index of the head of
the remaining ports). -/
def launchLoop (checks : Nat → Option String) : Nat → List Int → List Effect
  | _, [] => []
  | i, port :: rest =>
    (isPortListening (checks i) port).2 ++
    (if !(isPortListening (checks i) port).1 then
        [Effect.wgAdd 1, Effect.goStartPortListener port,
         Effect.log (LogLine.startedHoneypot port)]
      else [Effect.log (LogLine.portInUse port)]) ++
    launchLoop checks (i + 1) rest

/-- The listener start-up of `main` for a loaded configuration. -/
def startListeners (checks : Nat → Option String) (config : AlertConfig) : List Effect :=
  launchLoop checks 0 (elems config.PortsToMonitor)

/-! ## Configuration (main.go:37-93) -/

/-- Go `defaultConfig` (main.go:38-63). -/
def defaultConfig : AlertConfig :=
  { LogToFile := true
    PostToServer := true
    ServerURL := "https://yourserver.com/alert"
    BanIP := true
    BanDuration := 10
    PortsToMonitor := some [445, 135, 139, 5985, 3389, 22, 1433, 3306, 5900, 1723,
                            8000, 8080, 3268, 389, 636, 21]
    LogFile := "./LogFile.txt" }

/-- The zero value of `AlertConfig` (`var config AlertConfig`, main.go:67). -/
def zeroConfig : AlertConfig :=
  { LogToFile := false
    PostToServer := false
    ServerURL := ""
    BanIP := false
    BanDuration := 0
    PortsToMonitor := none
    LogFile := "" }

/-- What happens to the configuration file: `os.Open` fails, `ioutil.ReadAll`
fails, `json.Unmarshal` fails (leaving `config` in some state), or
`json.Unmarshal` succeeds and leaves `config` as given. -/
inductive ConfigFile where
  | openFailed (err : String)
  | readFailed (err : String)
  | unmarshalFailed (config : AlertConfig) (err : String)
  | parsed (config : AlertConfig)
deriving DecidableEq, Repr

/-- The defaulting step of `loadConfig` (main.go:84-90). -/
def populateDefaults (config : AlertConfig) : AlertConfig :=
  let config1 :=
    if config.PortsToMonitor = none ∨ len config.PortsToMonitor = 0 then
      { config with PortsToMonitor := defaultConfig.PortsToMonitor }
    else config
  if config1.LogFile = "" then { config1 with LogFile := defaultConfig.LogFile }
  else config1

/-- Go `loadConfig` (main.go:66-93): the returned configuration and error
(`none` for nil). -/
def loadConfig : ConfigFile → AlertConfig × Option String
  | ConfigFile.openFailed err =>
    (zeroConfig, some ("failed to open config file: " ++ err))
  | ConfigFile.readFailed err =>
    (zeroConfig, some ("failed to read config file: " ++ err))
  | ConfigFile.unmarshalFailed config err =>
    (config, some ("failed to unmarshal config: " ++ err))
  | ConfigFile.parsed config => (populateDefaults config, none)

/-! ## Standard-library behaviour used for concrete evaluation -/

/-- Index of the first occurrence of `c`, as Go `IndexByteString`. -/
def indexByte : List Char → Char → Option Nat
  | [], _ => none
  | x :: t, c => if x = c then some 0 else (indexByte t c).map (· + 1)

/-- Index of the last occurrence of `c`, as Go `LastIndexByteString`. -/
def lastIndexByte : List Char → Char → Option Nat
  | [], _ => none
  | x :: t, c =>
    match lastIndexByte t c with
    | some i => some (i + 1)
    | none => if x = c then some 0 else none

/-- Go standard library `net.SplitHostPort`, following its control flow:
the port starts after the last colon; a host in brackets must end just before
that colon; a host without brackets must contain no colon; no further bracket
may appear.  The error texts that quote a bracket are written without the
quotation marks. -/
def goSplitHostPort (hostport : String) : Except String (String × String) :=
  let s := hostport.data
  match lastIndexByte s ':' with
  | none => Except.error "missing port in address"
  | some i =>
    let finish (host : List Char) (j k : Nat) : Except String (String × String) :=
      if (indexByte (s.drop j) '[').isSome then
        Except.error "unexpected [ in address"
      else if (indexByte (s.drop k) ']').isSome then
        Except.error "unexpected ] in address"
      else Except.ok (String.mk host, String.mk (s.drop (i + 1)))
    if s.head? = some '[' then
      match indexByte s ']' with
      | none => Except.error "missing ] in address"
      | some e =>
        if e + 1 = s.length then Except.error "missing port in address"
        else if e + 1 = i then finish ((s.take e).drop 1) 1 (e + 1)
        else if s.get? (e + 1) = some ':' then Except.error "too many colons in address"
        else Except.error "missing port in address"
    else
      if (indexByte (s.take i) ':').isSome then
        Except.error "too many colons in address"
      else finish (s.take i) 0 0

/-- Go standard library `json.Marshal` on an `Alert`: the `time.Time` field
refuses to serialise when its year is outside 0..9999; otherwise the JSON
text is `encode alert`. -/
def goJsonMarshal (encode : Alert → String) (alert : Alert) : Except String String :=
  if alert.Timestamp.year < 0 ∨ alert.Timestamp.year ≥ 10000 then
    Except.error "json: error calling MarshalJSON for type time.Time: Time.MarshalJSON: year outside of range [0,9999]"
  else Except.ok (encode alert)

/-! ## Peer addresses of accepted TCP connections -/

/-- The remote address of a connection accepted from a `net.Listen("tcp", ...)`
listener, as Go builds its `*net.TCPAddr` from the socket address reported by
the kernel: an IPv4 address (four bytes) with a port, or an IPv6 address
(sixteen bytes, held here as eight big-endian 16-bit groups) with a port and
a zone name, empty when the address has no zone. -/
inductive TCPAddr where
  | inet4 (a b c d : Nat) (port : Nat)
  | inet6 (g0 g1 g2 g3 g4 g5 g6 g7 : Nat) (port : Nat) (zone : String)
deriving DecidableEq, Repr

/-- Dotted-decimal text of four address bytes. -/
def ipv4Text (a b c d : Nat) : List Char :=
  Nat.toDigits 10 a ++ '.' :: Nat.toDigits 10 b ++ '.' :: Nat.toDigits 10 c ++
    '.' :: Nat.toDigits 10 d

/-- Hexadecimal groups separated by single colons. -/
def joinGroups : List Nat → List Char
  | [] => []
  | [g] => Nat.toDigits 16 g
  | g :: rest => Nat.toDigits 16 g ++ ':' :: joinGroups rest

/-- Number of zero groups at the head of the list. -/
def zeroRunLen : List Nat → Nat
  | 0 :: rest => zeroRunLen rest + 1
  | _ => 0

/-- Start and length of the first longest run of zero groups, scanning from
index `i` with the best run found so far. -/
def bestZeroRun : Nat → List Nat → Nat × Nat → Nat × Nat
  | _, [], best => best
  | i, g :: rest, best =>
    if zeroRunLen (g :: rest) > best.2 then
      bestZeroRun (i + 1) rest (i, zeroRunLen (g :: rest))
    else bestZeroRun (i + 1) rest best

/-- Text of an IPv6 address given as groups: the first longest run of at
least two zero groups is replaced by a double colon. -/
def ipv6Text (groups : List Nat) : List Char :=
  if (bestZeroRun 0 groups (0, 0)).2 ≤ 1 then joinGroups groups
  else
    joinGroups (groups.take (bestZeroRun 0 groups (0, 0)).1) ++ ':' :: ':' ::
      joinGroups (groups.drop ((bestZeroRun 0 groups (0, 0)).1 + (bestZeroRun 0 groups (0, 0)).2))

/-- Go `IP.String()` on the address of a `TCPAddr`: dotted decimal for an
IPv4 address and for an IPv4-mapped IPv6 address, IPv6 text otherwise. -/
def ipText : TCPAddr → List Char
  | TCPAddr.inet4 a b c d _ => ipv4Text a b c d
  | TCPAddr.inet6 g0 g1 g2 g3 g4 g5 g6 g7 _ _ =>
    if g0 = 0 ∧ g1 = 0 ∧ g2 = 0 ∧ g3 = 0 ∧ g4 = 0 ∧ g5 = 65535 then
      ipv4Text (g6 / 256) (g6 % 256) (g7 / 256) (g7 % 256)
    else ipv6Text [g0, g1, g2, g3, g4, g5, g6, g7]

/-- The host text of a `TCPAddr`: the address text, followed by a percent
sign and the zone when there is a zone. -/
def hostText : TCPAddr → List Char
  | TCPAddr.inet4 a b c d port => ipText (TCPAddr.inet4 a b c d port)
  | TCPAddr.inet6 g0 g1 g2 g3 g4 g5 g6 g7 port zone =>
    if zone = "" then ipText (TCPAddr.inet6 g0 g1 g2 g3 g4 g5 g6 g7 port zone)
    else ipText (TCPAddr.inet6 g0 g1 g2 g3 g4 g5 g6 g7 port zone) ++ '%' :: zone.data

/-- The port of a `TCPAddr`. -/
def TCPAddr.port : TCPAddr → Nat
  | TCPAddr.inet4 _ _ _ _ port => port
  | TCPAddr.inet6 _ _ _ _ _ _ _ _ port _ => port

/-- Go standard library `net.JoinHostPort`: a host that contains a colon is
put in brackets. -/
def joinHostPort (host port : List Char) : List Char :=
  if (indexByte host ':').isSome then '[' :: host ++ ']' :: ':' :: port
  else host ++ ':' :: port

/-- Go `(*TCPAddr).String()`, the value of `conn.RemoteAddr().String()`
(main.go:208) for an accepted TCP connection. -/
def tcpAddrString (peer : TCPAddr) : String :=
  String.mk (joinHostPort (hostText peer) (Nat.toDigits 10 peer.port))

/-- An accepted connection from the TCP peer `peer`. -/
def acceptedFrom (peer : TCPAddr) (now : Time) (post run : Option String) : Accepted :=
  { remoteAddr := tcpAddrString peer, now := now, post := post, run := run }

/-! ## Projections of a trace -/

/-- The argument vector, when the effect is an external command. -/
def asCommand : Effect → Option (List String)
  | Effect.exec argv => some argv
  | _ => none

/-- Delay (nanoseconds) and address, when the effect schedules an unban. -/
def asScheduledUnban : Effect → Option (Int × String)
  | Effect.afterFuncUnban d ip => some (d, ip)
  | _ => none

/-- The line, when the effect writes to the log sink. -/
def asLogLine : Effect → Option LogLine
  | Effect.log line => some line
  | _ => none

/-- The line, when the effect writes the alert line of `sendAlert`. -/
def asAlertLine : Effect → Option LogLine
  | Effect.log (LogLine.alert ts port ip) => some (LogLine.alert ts port ip)
  | _ => none

/-- URL, content type and body, when the effect is an outbound POST. -/
def asPost : Effect → Option (String × String × String)
  | Effect.httpPost url contentType body => some (url, contentType, body)
  | _ => none

/-- Arguments, when the effect is an invocation of `banIP`. -/
def asBanCall : Effect → Option (String × Int)
  | Effect.callBanIP ip duration => some (ip, duration)
  | _ => none

/-- Arguments, when the effect is an invocation of `sendAlert`. -/
def asAlertCall : Effect → Option (Alert × AlertConfig)
  | Effect.callSendAlert alert config => some (alert, config)
  | _ => none

/-- The port, when the effect launches a listener goroutine. -/
def asLaunch : Effect → Option Int
  | Effect.goStartPortListener port => some port
  | _ => none

/-- Whether the effect registers with the join barrier or launches a listener. -/
def isBarrierStep : Effect → Bool
  | Effect.wgAdd _ => true
  | Effect.goStartPortListener _ => true
  | _ => false

/-- Argument vectors of the external commands run, in order. -/
def commands (t : List Effect) : List (List String) := t.filterMap asCommand

/-- Deferred unbans scheduled, in order. -/
def scheduledUnbans (t : List Effect) : List (Int × String) := t.filterMap asScheduledUnban

/-- Lines written to the log sink, in order. -/
def logLines (t : List Effect) : List LogLine := t.filterMap asLogLine

/-- Alert lines written to the log sink, in order. -/
def alertLines (t : List Effect) : List LogLine := t.filterMap asAlertLine

/-- Outbound POST requests attempted, in order. -/
def posts (t : List Effect) : List (String × String × String) := t.filterMap asPost

/-- Invocations of `banIP`, in order. -/
def banCalls (t : List Effect) : List (String × Int) := t.filterMap asBanCall

/-- Invocations of `sendAlert`, in order. -/
def alertCalls (t : List Effect) : List (Alert × AlertConfig) := t.filterMap asAlertCall

/-- Ports for which a listener goroutine is launched, in order. -/
def launched (t : List Effect) : List Int := t.filterMap asLaunch

/-- Whether a `select` outcome makes `startPortListener` return. -/
def isExit : SelectEvent → Bool
  | SelectEvent.conn _ => false
  | _ => true

/-- The line logged by the `select` case that makes `startPortListener`
return (main.go:202 and main.go:205). -/
def exitLog (port : Int) : SelectEvent → List Effect
  | SelectEvent.stop => [Effect.log (LogLine.stoppingListener port)]
  | SelectEvent.acceptError err => [Effect.log (LogLine.errorOnPort port err)]
  | SelectEvent.conn _ => []

/-! ## Sample inputs -/

/-- A clock reading: 2024-05-17 08:30:00. -/
def sampleTime : Time :=
  { year := 2024, month := 5, day := 17, hour := 8, minute := 30, second := 0 }

/-- A clock reading in the year 10000. -/
def farTime : Time :=
  { year := 10000, month := 1, day := 1, hour := 0, minute := 0, second := 0 }

/-- An accepted TCP connection from 203.0.113.7, ephemeral port 51234. -/
def sampleConn : Accepted :=
  { remoteAddr := "203.0.113.7:51234", now := sampleTime, post := none, run := none }

/-- An accepted connection whose address string has no port. -/
def noPortConn : Accepted :=
  { remoteAddr := "pipe", now := sampleTime, post := none, run := none }

/-- A JSON encoder stand-in for alerts that can be serialised. -/
def sampleEncode (alert : Alert) : String :=
  alert.RemoteIP

/-! ## Ban controller -/

/-- Within the `int64` range a product of minutes is not changed by the
wrap. -/
theorem minutesToDuration_exact (duration : Int) (hpos : 0 < duration)
    (hfit : duration * minuteNs ≤ maxInt64) :
    minutesToDuration duration = duration * minuteNs := by
  unfold minutesToDuration wrapInt64
  unfold maxInt64 at hfit
  unfold minuteNs at *
  omega

/-- C1 (as stated, refuted): with duration 10 and a block command that fails,
`banIP` issues the block command and schedules no unban at all, although the
claim requires exactly one scheduled unban whatever the outcome; and with
duration 153722868 and a successful block the scheduled delay is negative, not
153722868 minutes. -/
theorem banIP_failed_block_schedules_no_unban :
    commands (banIP (some "exit status 4") "203.0.113.7" 10) = [blockArgv "203.0.113.7"] ∧
    scheduledUnbans (banIP (some "exit status 4") "203.0.113.7" 10) = [] ∧
    scheduledUnbans (banIP none "203.0.113.7" 153722868) =
      [(-9223371993709551616, "203.0.113.7")] := by
  refine ⟨?_, ?_, ?_⟩
  · simp [banIP, commands, asCommand]
  · simp [banIP, scheduledUnbans, asScheduledUnban]
  · simp [banIP, scheduledUnbans, asScheduledUnban, minutesToDuration, wrapInt64, minuteNs]

/-- C1 (amended): for every address and every duration D > 0 whose length in
nanoseconds fits `int64`, `banIP` issues exactly one command, the block rule
for the address; it schedules exactly one deferred unban of that address, with
delay D minutes, when the block command succeeds, and none when it fails; the
deferred `unbanIP` issues exactly the unblock rule for the address. -/
theorem banIP_timed (ip : String) (duration : Int) (run : Option String)
    (hpos : 0 < duration) (hfit : duration * minuteNs ≤ maxInt64) :
    commands (banIP run ip duration) = [blockArgv ip] ∧
    scheduledUnbans (banIP run ip duration) =
      (if run = none then [(duration * minuteNs, ip)] else []) ∧
    ∀ unrun : Option String, commands (unbanIP unrun ip) = [unblockArgv ip] := by
  have hne : duration ≠ 0 := by omega
  have hd := minutesToDuration_exact duration hpos hfit
  refine ⟨?_, ?_, ?_⟩
  · cases run <;> simp [banIP, hne, commands, asCommand]
  · cases run <;> simp [banIP, hne, scheduledUnbans, asScheduledUnban, hd]
  · intro unrun
    cases unrun <;> simp [unbanIP, commands, asCommand]

/-- Instance for C1: ten minutes, successful block command. -/
theorem banIP_timed_witness :
    commands (banIP none "203.0.113.7" 10) = [blockArgv "203.0.113.7"] ∧
    scheduledUnbans (banIP none "203.0.113.7" 10) =
      (if (none : Option String) = none then [(10 * minuteNs, "203.0.113.7")] else []) ∧
    ∀ unrun : Option String, commands (unbanIP unrun "203.0.113.7") = [unblockArgv "203.0.113.7"] :=
  banIP_timed "203.0.113.7" 10 none (by decide) (by decide)

/-- Whatever the duration and the outcome, `banIP` runs exactly the block
command for the address. -/
theorem banIP_commands (run : Option String) (ip : String) (duration : Int) :
    commands (banIP run ip duration) = [blockArgv ip] := by
  by_cases h : duration = 0 <;> cases run <;> simp [banIP, h, commands, asCommand]

/-- C2: for every address and either outcome of the block command,
`banIP` with duration 0 issues exactly one command, the block rule for the
address, which is the command a timed ban issues, and schedules no unban. -/
theorem banIP_permanent (ip : String) (run : Option String) :
    commands (banIP run ip 0) = [blockArgv ip] ∧
    scheduledUnbans (banIP run ip 0) = [] ∧
    ∀ (run2 : Option String) (duration : Int),
      commands (banIP run2 ip duration) = commands (banIP run ip 0) := by
  refine ⟨banIP_commands run ip 0, ?_, ?_⟩
  · cases run <;> simp [banIP, scheduledUnbans, asScheduledUnban]
  · intro run2 duration
    rw [banIP_commands, banIP_commands]

/-! ## Alert dispatcher -/

/-- Inside `banIP` there is no POST, no alert line, no nested call and no
close of the connection. -/
theorem banIP_projections (run : Option String) (ip : String) (duration : Int) :
    posts (banIP run ip duration) = [] ∧ alertLines (banIP run ip duration) = [] ∧
    banCalls (banIP run ip duration) = [] ∧ alertCalls (banIP run ip duration) = [] ∧
    Effect.connClose ∉ banIP run ip duration := by
  by_cases h : duration = 0 <;> cases run <;>
    simp [banIP, h, posts, asPost, alertLines, asAlertLine, banCalls, asBanCall,
      alertCalls, asAlertCall]

/-- C3 (as stated, refuted): with the default policy (PostToServer true,
ServerURL non-empty) and an alert whose timestamp lies in the year 10000,
`json.Marshal` fails and `sendAlert` attempts no POST, although the claim
requires exactly one; the ban is still invoked. -/
theorem sendAlert_unserialisable_alert_no_post :
    defaultConfig.PostToServer = true ∧ defaultConfig.ServerURL ≠ "" ∧
    posts (sendAlert (goJsonMarshal sampleEncode) none none
      { Port := 445, RemoteIP := "203.0.113.7", Timestamp := farTime } defaultConfig) = [] ∧
    banCalls (sendAlert (goJsonMarshal sampleEncode) none none
      { Port := 445, RemoteIP := "203.0.113.7", Timestamp := farTime } defaultConfig) =
      [("203.0.113.7", 10)] := by
  refine ⟨rfl, by decide, ?_, ?_⟩
  · simp [sendAlert, defaultConfig, goJsonMarshal, farTime, posts, asPost, banIP]
  · simp [sendAlert, defaultConfig, goJsonMarshal, farTime, banCalls, asBanCall, banIP]

/-- C3 (amended): for every alert, policy and outcome of the external calls,
`sendAlert` writes the alert line iff LogToFile; attempts exactly one POST of
the serialised alert to ServerURL iff PostToServer is true, ServerURL is
non-empty and `json.Marshal` of the alert succeeds, and none otherwise (no
second attempt after a transport failure); and invokes `banIP` exactly once,
with the alert's address and BanDuration, iff BanIP is true. -/
theorem sendAlert_actions (marshal : Alert → Except String String) (post run : Option String)
    (alert : Alert) (config : AlertConfig) :
    alertLines (sendAlert marshal post run alert config) =
      (if config.LogToFile = true then
        [LogLine.alert alert.Timestamp alert.Port alert.RemoteIP] else []) ∧
    posts (sendAlert marshal post run alert config) =
      (if config.PostToServer = true ∧ config.ServerURL ≠ "" then
        (match marshal alert with
         | Except.ok payload => [(config.ServerURL, "application/json", payload)]
         | Except.error _ => [])
       else []) ∧
    banCalls (sendAlert marshal post run alert config) =
      (if config.BanIP = true then [(alert.RemoteIP, config.BanDuration)] else []) ∧
    commands (sendAlert marshal post run alert config) =
      (if config.BanIP = true then [blockArgv alert.RemoteIP] else []) := by
  obtain ⟨hp, ha, hb, -, -⟩ := banIP_projections run alert.RemoteIP config.BanDuration
  have hc := banIP_commands run alert.RemoteIP config.BanDuration
  unfold posts at hp ⊢
  unfold alertLines at ha ⊢
  unfold banCalls at hb ⊢
  unfold commands at hc ⊢
  unfold sendAlert
  refine ⟨?_, ?_, ?_, ?_⟩
  · cases hl : config.LogToFile <;> cases hs : config.PostToServer <;>
      cases hbn : config.BanIP <;> by_cases hu : config.ServerURL = "" <;>
      cases hm : marshal alert <;> cases post <;>
      simp [hu, ha, asAlertLine]
  · cases hl : config.LogToFile <;> cases hs : config.PostToServer <;>
      cases hbn : config.BanIP <;> by_cases hu : config.ServerURL = "" <;>
      cases hm : marshal alert <;> cases post <;>
      simp [hu, hp, asPost]
  · cases hl : config.LogToFile <;> cases hs : config.PostToServer <;>
      cases hbn : config.BanIP <;> by_cases hu : config.ServerURL = "" <;>
      cases hm : marshal alert <;> cases post <;>
      simp [hu, hb, asBanCall]
  · cases hl : config.LogToFile <;> cases hs : config.PostToServer <;>
      cases hbn : config.BanIP <;> by_cases hu : config.ServerURL = "" <;>
      cases hm : marshal alert <;> cases post <;>
      simp [hu, hc, asCommand]

/-! ## Listener supervisor: the accept branch -/

/-- With the three reaction flags off `sendAlert` does nothing. -/
theorem sendAlert_all_off (marshal : Alert → Except String String) (post run : Option String)
    (alert : Alert) (config : AlertConfig) (hlog : config.LogToFile = false)
    (hpost : config.PostToServer = false) (hban : config.BanIP = false) :
    sendAlert marshal post run alert config = [] := by
  simp [sendAlert, hlog, hpost, hban]

/-- Inside `sendAlert` the connection is never closed and there is no nested
call of `sendAlert`. -/
theorem sendAlert_no_close (marshal : Alert → Except String String) (post run : Option String)
    (alert : Alert) (config : AlertConfig) :
    Effect.connClose ∉ sendAlert marshal post run alert config ∧
    alertCalls (sendAlert marshal post run alert config) = [] := by
  obtain ⟨-, -, -, hcall, hclose⟩ := banIP_projections run alert.RemoteIP config.BanDuration
  unfold alertCalls at hcall ⊢
  unfold sendAlert
  constructor
  · cases hl : config.LogToFile <;> cases hs : config.PostToServer <;>
      cases hbn : config.BanIP <;> by_cases hu : config.ServerURL = "" <;>
      cases hm : marshal alert <;> cases post <;>
      simp [hu, hclose]
  · cases hl : config.LogToFile <;> cases hs : config.PostToServer <;>
      cases hbn : config.BanIP <;> by_cases hu : config.ServerURL = "" <;>
      cases hm : marshal alert <;> cases post <;>
      simp [hu, hcall, asAlertCall]

/-- The accept branch invokes `sendAlert` exactly once, with the alert built
from the listener port, the extracted address and the clock reading. -/
theorem acceptBranch_alertCalls (marshal : Alert → Except String String)
    (split : String → Except String (String × String))
    (port : Int) (config : AlertConfig) (c : Accepted) :
    alertCalls (acceptBranch marshal split port config c) = [(mkAlert split port c, config)] := by
  have h := (sendAlert_no_close marshal c.post c.run (mkAlert split port c) config).2
  unfold alertCalls at h ⊢
  unfold acceptBranch
  cases hs : split c.remoteAddr <;> simp [h, asAlertCall]

/-- C4 (as stated, refuted): under the all-false policy, handling the
connection from 203.0.113.7:51234 on port 22 writes the line
"Connection attempt detected on port 22 from 203.0.113.7:51234" to the log
sink, although the claim says no line is written. -/
theorem acceptBranch_all_off_still_logs :
    zeroConfig.LogToFile = false ∧ zeroConfig.PostToServer = false ∧
    zeroConfig.BanIP = false ∧
    logLines (acceptBranch (goJsonMarshal sampleEncode) goSplitHostPort 22 zeroConfig
      sampleConn) = [LogLine.connectionAttempt 22 "203.0.113.7:51234"] := by
  refine ⟨rfl, rfl, rfl, ?_⟩
  decide

/-- C4 (amended): under a policy with LogToFile, PostToServer and BanIP all
false, handling an accepted connection closes it, as its last effect, writes
no alert line, sends no outbound request, issues no command and invokes no
ban; the only lines written to the log sink are the listener's unconditional
"Connection attempt detected" line and, when the address does not split, the
"Failed to parse remote address" line. -/
theorem acceptBranch_all_off (marshal : Alert → Except String String)
    (split : String → Except String (String × String))
    (port : Int) (config : AlertConfig) (c : Accepted)
    (hlog : config.LogToFile = false) (hpost : config.PostToServer = false)
    (hban : config.BanIP = false) :
    (acceptBranch marshal split port config c).getLast? = some Effect.connClose ∧
    (acceptBranch marshal split port config c).count Effect.connClose = 1 ∧
    alertLines (acceptBranch marshal split port config c) = [] ∧
    posts (acceptBranch marshal split port config c) = [] ∧
    commands (acceptBranch marshal split port config c) = [] ∧
    banCalls (acceptBranch marshal split port config c) = [] ∧
    logLines (acceptBranch marshal split port config c) =
      LogLine.connectionAttempt port c.remoteAddr ::
        (match split c.remoteAddr with
         | Except.ok _ => []
         | Except.error err => [LogLine.failedParse err]) := by
  have h := sendAlert_all_off marshal c.post c.run (mkAlert split port c) config hlog hpost hban
  unfold acceptBranch
  rw [h]
  cases hs : split c.remoteAddr <;>
    simp [alertLines, asAlertLine, posts, asPost, commands, asCommand, banCalls, asBanCall,
      logLines, asLogLine]

/-- Instance for C4: the all-false policy and a connection
from 203.0.113.7:51234 on port 22. -/
theorem acceptBranch_all_off_witness :
    (acceptBranch (goJsonMarshal sampleEncode) goSplitHostPort 22 zeroConfig
      sampleConn).getLast? = some Effect.connClose ∧
    (acceptBranch (goJsonMarshal sampleEncode) goSplitHostPort 22 zeroConfig
      sampleConn).count Effect.connClose = 1 ∧
    posts (acceptBranch (goJsonMarshal sampleEncode) goSplitHostPort 22 zeroConfig
      sampleConn) = [] ∧
    commands (acceptBranch (goJsonMarshal sampleEncode) goSplitHostPort 22 zeroConfig
      sampleConn) = [] :=
  have h := acceptBranch_all_off (goJsonMarshal sampleEncode) goSplitHostPort 22 zeroConfig
    sampleConn rfl rfl rfl
  ⟨h.1, h.2.1, h.2.2.2.1, h.2.2.2.2.1⟩

/-- C5 (as stated, refuted): handling the connection from 203.0.113.7:51234
on port 22 under the default policy invokes `sendAlert` at position 1 of the
trace and closes the connection at position 10, after every effect of the
dispatch, so the close does not precede the call. -/
theorem acceptBranch_close_not_before_dispatch :
    (acceptBranch (goJsonMarshal sampleEncode) goSplitHostPort 22 defaultConfig
      sampleConn).indexOf
        (Effect.callSendAlert (mkAlert goSplitHostPort 22 sampleConn) defaultConfig) = 1 ∧
    (acceptBranch (goJsonMarshal sampleEncode) goSplitHostPort 22 defaultConfig
      sampleConn).indexOf Effect.connClose = 10 ∧
    ¬ ((acceptBranch (goJsonMarshal sampleEncode) goSplitHostPort 22 defaultConfig
      sampleConn).indexOf Effect.connClose <
       (acceptBranch (goJsonMarshal sampleEncode) goSplitHostPort 22 defaultConfig
      sampleConn).indexOf
        (Effect.callSendAlert (mkAlert goSplitHostPort 22 sampleConn) defaultConfig)) := by
  decide

/-- C5 (amended): for every accepted connection the accept branch calls
`sendAlert` while the connection is still open and closes the connection
exactly once, as its last effect, after all effects of `sendAlert`: the trace
is a first part without close, the call, the effects of `sendAlert` (none of which
is a close), and then the close. -/
theorem acceptBranch_dispatch_then_close (marshal : Alert → Except String String)
    (split : String → Except String (String × String))
    (port : Int) (config : AlertConfig) (c : Accepted) :
    ∃ pre : List Effect,
      acceptBranch marshal split port config c =
        pre ++ Effect.callSendAlert (mkAlert split port c) config ::
          (sendAlert marshal c.post c.run (mkAlert split port c) config ++
            [Effect.connClose]) ∧
      Effect.connClose ∉ pre ∧
      Effect.connClose ∉ sendAlert marshal c.post c.run (mkAlert split port c) config ∧
      (acceptBranch marshal split port config c).count Effect.connClose = 1 := by
  have hno := (sendAlert_no_close marshal c.post c.run (mkAlert split port c) config).1
  have hcount : (sendAlert marshal c.post c.run (mkAlert split port c) config).count
      Effect.connClose = 0 := List.count_eq_zero.mpr hno
  refine ⟨[Effect.log (LogLine.connectionAttempt port c.remoteAddr)] ++
    (match split c.remoteAddr with
     | Except.ok _ => []
     | Except.error err => [Effect.log (LogLine.failedParse err)]), ?_, ?_, hno, ?_⟩
  · simp [acceptBranch]
  · cases hs : split c.remoteAddr <;> simp
  · unfold acceptBranch
    cases hs : split c.remoteAddr <;> simp [List.count_cons, hcount]

/-! ## Listener supervisor: addresses of accepted TCP connections -/

/-- The index returned by `indexByte` holds the character searched for. -/
theorem indexByte_get (s : List Char) (c : Char) (e : Nat) (h : indexByte s c = some e) :
    s.get? e = some c := by
  induction s generalizing e with
  | nil => simp [indexByte] at h
  | cons x t ih =>
    unfold indexByte at h
    by_cases hx : x = c
    · simp [hx] at h
      subst h
      simp [hx]
    · simp only [hx, if_false, Option.map_eq_some'] at h
      obtain ⟨k, hk, rfl⟩ := h
      simpa using ih k hk

/-- The index returned by `lastIndexByte` holds the character searched for. -/
theorem lastIndexByte_get (s : List Char) (c : Char) (i : Nat)
    (h : lastIndexByte s c = some i) : s.get? i = some c := by
  induction s generalizing i with
  | nil => simp [lastIndexByte] at h
  | cons x t ih =>
    unfold lastIndexByte at h
    cases hl : lastIndexByte t c with
    | some k =>
      simp only [hl, Option.some.injEq] at h
      subst h
      simpa using ih k hl
    | none =>
      simp only [hl] at h
      by_cases hx : x = c
      · simp [hx] at h
        subst h
        simp [hx]
      · simp [hx] at h

/-- When `net.SplitHostPort` succeeds with an empty host, the address starts
with a colon or with an empty pair of brackets. -/
theorem goSplitHostPort_empty_host (s : List Char) (port : String)
    (h : goSplitHostPort (String.mk s) = Except.ok ("", port)) :
    s.head? = some ':' ∨ ∃ t, s = '[' :: ']' :: t := by
  unfold goSplitHostPort at h
  simp only [] at h
  split at h
  · simp at h
  · rename_i i hi
    have hci := lastIndexByte_get s ':' i hi
    split at h
    · rename_i hhead
      split at h
      · simp at h
      · rename_i e he
        have hce := indexByte_get s ']' e he
        split at h
        · simp at h
        · split at h
          · split at h
            · simp at h
            · split at h
              · simp at h
              · rename_i h1 h2 h3 h4
                injection h with h
                injection h with hhost hport
                have hd := congrArg String.data hhost
                simp only [] at hd
                change List.drop 1 (List.take e s) = [] at hd
                cases s with
                | nil => simp at hhead
                | cons x t =>
                  simp only [List.head?_cons, Option.some.injEq] at hhead
                  subst hhead
                  cases e with
                  | zero => simp at hce
                  | succ e1 =>
                    cases e1 with
                    | zero =>
                      cases t with
                      | nil => simp at hce
                      | cons y t2 =>
                        simp at hce
                        subst hce
                        exact Or.inr ⟨t2, rfl⟩
                    | succ e2 =>
                      cases t with
                      | nil => simp at hce
                      | cons y t2 => simp at hd
          · split at h <;> simp at h
    · split at h
      · simp at h
      · split at h
        · simp at h
        · split at h
          · simp at h
          · injection h with h
            injection h with hhost hport
            have hd := congrArg String.data hhost
            change List.take i s = [] at hd
            cases s with
            | nil => simp at hci
            | cons x t =>
              cases i with
              | zero =>
                simp at hci
                subst hci
                exact Or.inl rfl
              | succ k => simp at hd

/-- No digit character is a bracket. -/
theorem digitChar_not_bracket (n : Nat) : Nat.digitChar n ≠ '[' ∧ Nat.digitChar n ≠ ']' := by
  by_cases h : n < 16
  · interval_cases n <;> exact ⟨by decide, by decide⟩
  · have hstar : Nat.digitChar n = '*' := by
      unfold Nat.digitChar
      iterate 16 rw [if_neg (by omega)]
    rw [hstar]
    exact ⟨by decide, by decide⟩

/-- Pushing digits in front of a digit leaves a digit in front. -/
theorem toDigitsCore_head (b fuel n c : Nat) (ds : List Char) :
    ∃ k rest, Nat.toDigitsCore b fuel n (Nat.digitChar c :: ds) = Nat.digitChar k :: rest := by
  induction fuel generalizing n c ds with
  | zero => exact ⟨c, ds, rfl⟩
  | succ f ih =>
    unfold Nat.toDigitsCore
    by_cases h0 : n / b = 0
    · simp only [h0, if_true]
      exact ⟨n % b, _, rfl⟩
    · simp only [h0, if_false]
      exact ih (n / b) (n % b) _

/-- The text of a number starts with a character that is not a bracket. -/
theorem toDigits_head (b n : Nat) (tail : List Char) :
    ∃ c rest, Nat.toDigits b n ++ tail = c :: rest ∧ c ≠ '[' ∧ c ≠ ']' := by
  have h : ∃ k rest, Nat.toDigits b n = Nat.digitChar k :: rest := by
    unfold Nat.toDigits Nat.toDigitsCore
    by_cases h0 : n / b = 0
    · simp only [h0, if_true]
      exact ⟨n % b, _, rfl⟩
    · simp only [h0, if_false]
      exact toDigitsCore_head b n (n / b) (n % b) []
  obtain ⟨k, rest, hk⟩ := h
  exact ⟨Nat.digitChar k, rest ++ tail, by simp [hk], digitChar_not_bracket k⟩

/-- The address text of a TCP peer is non-empty and starts with a character
that is not a bracket. -/
theorem ipText_head (peer : TCPAddr) (tail : List Char) :
    ∃ c rest, ipText peer ++ tail = c :: rest ∧ c ≠ '[' ∧ c ≠ ']' := by
  cases peer with
  | inet4 a b c d port =>
    simp only [ipText, ipv4Text, List.append_assoc]
    exact toDigits_head 10 a _
  | inet6 g0 g1 g2 g3 g4 g5 g6 g7 port zone =>
    simp only [ipText]
    by_cases hm : g0 = 0 ∧ g1 = 0 ∧ g2 = 0 ∧ g3 = 0 ∧ g4 = 0 ∧ g5 = 65535
    · simp only [hm, and_self, if_true, ipv4Text, List.append_assoc]
      exact toDigits_head 10 (g6 / 256) _
    · simp only [hm, if_false, ipv6Text]
      by_cases hr : (bestZeroRun 0 [g0, g1, g2, g3, g4, g5, g6, g7] (0, 0)).2 ≤ 1
      · simp only [hr, if_true, joinGroups, List.append_assoc]
        exact toDigits_head 16 g0 _
      · simp only [hr, if_false]
        cases (bestZeroRun 0 [g0, g1, g2, g3, g4, g5, g6, g7] (0, 0)).1 with
        | zero =>
          simp only [List.take_zero, joinGroups, List.nil_append, List.cons_append]
          exact ⟨':', _, rfl, by decide, by decide⟩
        | succ k =>
          cases hk : List.take k [g1, g2, g3, g4, g5, g6, g7] with
          | nil =>
            simp only [List.take_succ_cons, hk, joinGroups, List.append_assoc]
            exact toDigits_head 16 g0 _
          | cons y t =>
            simp only [List.take_succ_cons, hk, joinGroups, List.append_assoc]
            exact toDigits_head 16 g0 _

/-- The host text of a TCP peer is non-empty and starts with a character that
is not a bracket. -/
theorem hostText_head (peer : TCPAddr) :
    ∃ c rest, hostText peer = c :: rest ∧ c ≠ '[' ∧ c ≠ ']' := by
  cases peer with
  | inet4 a b c d port =>
    simpa [hostText] using ipText_head (TCPAddr.inet4 a b c d port) []
  | inet6 g0 g1 g2 g3 g4 g5 g6 g7 port zone =>
    simp only [hostText]
    by_cases hz : zone = ""
    · simpa [hz] using ipText_head (TCPAddr.inet6 g0 g1 g2 g3 g4 g5 g6 g7 port "") []
    · simp only [hz, if_false]
      exact ipText_head (TCPAddr.inet6 g0 g1 g2 g3 g4 g5 g6 g7 port zone) _

/-- The address extracted from the string of a TCP peer is never empty. -/
theorem alertIP_tcpAddr_ne_empty (peer : TCPAddr) :
    alertIP goSplitHostPort (tcpAddrString peer) ≠ "" := by
  obtain ⟨c, rest, hhost, hc1, hc2⟩ := hostText_head peer
  unfold alertIP
  cases hs : goSplitHostPort (tcpAddrString peer) with
  | error err =>
    simp only [tcpAddrString, joinHostPort, hhost]
    intro h
    have hd := congrArg String.data h
    split at hd <;> simp at hd
  | ok hp =>
    obtain ⟨host, p⟩ := hp
    simp only
    intro hempty
    subst hempty
    unfold tcpAddrString at hs
    have h := goSplitHostPort_empty_host _ p hs
    rw [hhost] at h
    unfold joinHostPort at h
    split at h
    · rcases h with h | ⟨t, h⟩
      · simp at h
      · simp at h
        exact hc2 h.1
    · rename_i hcolon
      rcases h with h | ⟨t, h⟩
      · simp at h
        subst h
        simp [indexByte] at hcolon
      · simp at h
        exact hc1 h.1

/-- The strings of sample TCP peers: an IPv4 peer, an IPv6 peer, the IPv6
loopback, an IPv4-mapped IPv6 peer and a link-local peer with a zone. -/
theorem tcpAddrString_samples :
    tcpAddrString (TCPAddr.inet4 203 0 113 7 51234) = sampleConn.remoteAddr ∧
    tcpAddrString (TCPAddr.inet6 8193 3512 0 0 0 0 0 1 443 "") = "[2001:db8::1]:443" ∧
    tcpAddrString (TCPAddr.inet6 0 0 0 0 0 0 0 1 443 "") = "[::1]:443" ∧
    tcpAddrString (TCPAddr.inet6 0 0 0 0 0 65535 51968 29191 443 "") = "203.0.114.7:443" ∧
    tcpAddrString (TCPAddr.inet6 65152 0 0 0 0 0 0 1 443 "eth0") = "[fe80::1%eth0]:443" ∧
    alertIP goSplitHostPort (tcpAddrString (TCPAddr.inet6 65152 0 0 0 0 0 0 1 443 "eth0")) =
      "fe80::1%eth0" := by
  decide

/-- C6: for every connection accepted by the listener for port p, whatever
TCP peer (IPv4, or IPv6 with any zone) and port its remote address string
comes from, the accept branch of `startPortListener` invokes `sendAlert`
exactly once, with an alert whose Port equals p and whose RemoteIP is a
non-empty string. -/
theorem acceptBranch_dispatch_once (marshal : Alert → Except String String)
    (port : Int) (config : AlertConfig) (peer : TCPAddr) (now : Time)
    (post run : Option String) :
    ∃ alert : Alert,
      alertCalls (acceptBranch marshal goSplitHostPort port config
        (acceptedFrom peer now post run)) = [(alert, config)] ∧
      alert.Port = port ∧ alert.RemoteIP ≠ "" :=
  ⟨mkAlert goSplitHostPort port (acceptedFrom peer now post run),
    acceptBranch_alertCalls marshal goSplitHostPort port config (acceptedFrom peer now post run),
    rfl, alertIP_tcpAddr_ne_empty peer⟩

/-- C7: for every raw remote address string r of an accepted connection the
event is dispatched exactly once; when splitting r fails its RemoteIP is r
verbatim, and when the split succeeds its RemoteIP is the host component, the
port component being discarded. -/
theorem acceptBranch_remoteIP (marshal : Alert → Except String String)
    (split : String → Except String (String × String))
    (port : Int) (config : AlertConfig) (c : Accepted) :
    (∀ err, split c.remoteAddr = Except.error err →
      alertCalls (acceptBranch marshal split port config c) =
        [({ Port := port, RemoteIP := c.remoteAddr, Timestamp := c.now }, config)]) ∧
    (∀ host p, split c.remoteAddr = Except.ok (host, p) →
      alertCalls (acceptBranch marshal split port config c) =
        [({ Port := port, RemoteIP := host, Timestamp := c.now }, config)]) := by
  constructor
  · intro err h
    rw [acceptBranch_alertCalls]
    simp [mkAlert, alertIP, h]
  · intro host p h
    rw [acceptBranch_alertCalls]
    simp [mkAlert, alertIP, h]

/-- Instance for C7 with the standard splitter: the
address "pipe" has no port and is reported verbatim; the address
"203.0.113.7:51234" is reported as "203.0.113.7". -/
theorem acceptBranch_remoteIP_witness :
    alertCalls (acceptBranch (goJsonMarshal sampleEncode) goSplitHostPort 22 defaultConfig
      noPortConn) =
      [({ Port := 22, RemoteIP := "pipe", Timestamp := sampleTime }, defaultConfig)] ∧
    alertCalls (acceptBranch (goJsonMarshal sampleEncode) goSplitHostPort 22 defaultConfig
      sampleConn) =
      [({ Port := 22, RemoteIP := "203.0.113.7", Timestamp := sampleTime }, defaultConfig)] :=
  ⟨(acceptBranch_remoteIP (goJsonMarshal sampleEncode) goSplitHostPort 22 defaultConfig
      noPortConn).1 "missing port in address" rfl,
   (acceptBranch_remoteIP (goJsonMarshal sampleEncode) goSplitHostPort 22 defaultConfig
      sampleConn).2 "203.0.113.7" "51234" rfl⟩

/-! ## Orchestrator start-up loop -/

/-- The listeners launched by the loop from index `i` on are the ports whose
availability check reported "not in use", in order. -/
theorem launchLoop_launched (checks : Nat → Option String) (ports : List Int) (i : Nat) :
    launched (launchLoop checks i ports) =
      ((ports.enumFrom i).filter
        (fun ip => !(isPortListening (checks ip.1) ip.2).1)).map Prod.snd := by
  induction ports generalizing i with
  | nil => simp [launchLoop, launched]
  | cons port rest ih =>
    have ih2 := ih (i + 1)
    unfold launched at ih2 ⊢
    cases hc : checks i <;>
      simp [launchLoop, isPortListening, hc, List.enumFrom, asLaunch, ih2]

/-- Every launch is immediately preceded by its own `wg.Add(1)` and the loop
touches the join barrier nowhere else. -/
theorem launchLoop_barrier (checks : Nat → Option String) (ports : List Int) (i : Nat) :
    (launchLoop checks i ports).filter isBarrierStep =
      (launched (launchLoop checks i ports)).flatMap
        (fun port => [Effect.wgAdd 1, Effect.goStartPortListener port]) := by
  induction ports generalizing i with
  | nil => simp [launchLoop, launched]
  | cons port rest ih =>
    have ih2 := ih (i + 1)
    unfold launched at ih2 ⊢
    cases hc : checks i <;>
      simp [launchLoop, isPortListening, hc, isBarrierStep, asLaunch, ih2]

/-- The loop handles a concatenation of port lists piecewise: what it does for
the later ports does not depend on the earlier ones. -/
theorem launchLoop_append (checks : Nat → Option String) (ps qs : List Int) (i : Nat) :
    launchLoop checks i (ps ++ qs) =
      launchLoop checks i ps ++ launchLoop checks (i + ps.length) qs := by
  induction ps generalizing i with
  | nil => simp [launchLoop]
  | cons port rest ih =>
    have ih2 := ih (i + 1)
    have hlen : i + 1 + rest.length = i + (rest.length + 1) := by omega
    simp [launchLoop, ih2, hlen]

/-- C8: for every port list and every outcome of the availability checks,
the listeners launched by the start-up loop of `main` are exactly the entries
of PortsToMonitor, in order and with duplicates, whose `isPortListening` call
returned false; each launch is paired with one `wg.Add(1)`; and an entry
reported in use launches nothing while the entries before and after it are
launched exactly as their own checks decide. -/
theorem startListeners_launches_available (checks : Nat → Option String)
    (config : AlertConfig) :
    launched (startListeners checks config) =
      (((elems config.PortsToMonitor).enumFrom 0).filter
        (fun ip => !(isPortListening (checks ip.1) ip.2).1)).map Prod.snd ∧
    (startListeners checks config).filter isBarrierStep =
      (launched (startListeners checks config)).flatMap
        (fun port => [Effect.wgAdd 1, Effect.goStartPortListener port]) ∧
    (∀ (ps qs : List Int) (q : Int), elems config.PortsToMonitor = ps ++ q :: qs →
      (isPortListening (checks ps.length) q).1 = true →
      launched (startListeners checks config) =
        launched (launchLoop checks 0 ps) ++
          launched (launchLoop checks (ps.length + 1) qs)) := by
  refine ⟨launchLoop_launched checks (elems config.PortsToMonitor) 0,
   launchLoop_barrier checks (elems config.PortsToMonitor) 0, ?_⟩
  intro ps qs q hports hbusy
  unfold startListeners
  rw [hports, launchLoop_append]
  cases hc : checks ps.length with
  | none => simp [isPortListening, hc] at hbusy
  | some err => simp [launchLoop, isPortListening, hc, launched, asLaunch]

/-- Instance for C8: ports 22, 80, 22 with
port 80 reported in use launch listeners for 22 and 22. -/
theorem startListeners_launches_available_witness :
    launched (startListeners (fun i => if i = 1 then some "address already in use" else none)
      { zeroConfig with PortsToMonitor := some [22, 80, 22] }) =
      launched (launchLoop (fun i => if i = 1 then some "address already in use" else none)
        0 [22]) ++
      launched (launchLoop (fun i => if i = 1 then some "address already in use" else none)
        2 [22]) :=
  (startListeners_launches_available
    (fun i => if i = 1 then some "address already in use" else none)
    { zeroConfig with PortsToMonitor := some [22, 80, 22] }).2.2 [22] [22] 80 rfl rfl

/-! ## Listener supervisor: exit paths -/

/-- Neither `banIP` nor `sendAlert` touches the join barrier or the
listening socket. -/
theorem sendAlert_no_barrier (marshal : Alert → Except String String) (post run : Option String)
    (alert : Alert) (config : AlertConfig) :
    Effect.wgDone ∉ sendAlert marshal post run alert config ∧
    Effect.listenerClose ∉ sendAlert marshal post run alert config := by
  have hb : Effect.wgDone ∉ banIP run alert.RemoteIP config.BanDuration ∧
      Effect.listenerClose ∉ banIP run alert.RemoteIP config.BanDuration := by
    by_cases h : config.BanDuration = 0 <;> cases run <;> simp [banIP, h]
  unfold sendAlert
  constructor
  · cases hl : config.LogToFile <;> cases hs : config.PostToServer <;>
      cases hbn : config.BanIP <;> by_cases hu : config.ServerURL = "" <;>
      cases hm : marshal alert <;> cases post <;>
      simp [hu, hb.1]
  · cases hl : config.LogToFile <;> cases hs : config.PostToServer <;>
      cases hbn : config.BanIP <;> by_cases hu : config.ServerURL = "" <;>
      cases hm : marshal alert <;> cases post <;>
      simp [hu, hb.2]

/-- The accept branch touches neither the join barrier nor the listening
socket. -/
theorem acceptBranch_no_barrier (marshal : Alert → Except String String)
    (split : String → Except String (String × String))
    (port : Int) (config : AlertConfig) (c : Accepted) :
    Effect.wgDone ∉ acceptBranch marshal split port config c ∧
    Effect.listenerClose ∉ acceptBranch marshal split port config c := by
  have h := sendAlert_no_barrier marshal c.post c.run (mkAlert split port c) config
  unfold acceptBranch
  constructor
  · cases hs : split c.remoteAddr <;> simp [h.1]
  · cases hs : split c.remoteAddr <;> simp [h.2]

/-- The listener loop returns exactly when the sequence of `select` outcomes
contains a shutdown signal or a listener error. -/
theorem listenLoop_returned (marshal : Alert → Except String String)
    (split : String → Except String (String × String))
    (port : Int) (config : AlertConfig) (events : List SelectEvent) :
    (listenLoop marshal split port config events).returned = events.any isExit := by
  induction events with
  | nil => rfl
  | cons e rest ih => cases e <;> simp [listenLoop, isExit, ih]

/-- When the listener loop returns, its trace is the accept branches of the
connections selected before the first exit event, followed by the line logged
by that event. -/
theorem listenLoop_trace (marshal : Alert → Except String String)
    (split : String → Except String (String × String))
    (port : Int) (config : AlertConfig) (events : List SelectEvent)
    (h : (listenLoop marshal split port config events).returned = true) :
    ∃ (cs : List Accepted) (e : SelectEvent) (rest : List SelectEvent),
      events = cs.map SelectEvent.conn ++ e :: rest ∧ isExit e = true ∧
      (listenLoop marshal split port config events).trace =
        cs.flatMap (acceptBranch marshal split port config) ++ exitLog port e := by
  induction events with
  | nil => simp [listenLoop] at h
  | cons e rest ih =>
    cases e with
    | stop => exact ⟨[], SelectEvent.stop, rest, by simp, rfl, by simp [listenLoop, exitLog]⟩
    | acceptError err =>
      exact ⟨[], SelectEvent.acceptError err, rest, by simp, rfl, by simp [listenLoop, exitLog]⟩
    | conn c =>
      have h2 : (listenLoop marshal split port config rest).returned = true := by
        simpa [listenLoop] using h
      obtain ⟨cs, e, rest2, hev, hex, htr⟩ := ih h2
      exact ⟨c :: cs, e, rest2, by simp [hev], hex, by simp [listenLoop, htr]⟩

/-- C9: `startPortListener` returns exactly when the bind fails or the
`select` outcomes contain a shutdown signal or a listener error, and every
run that returns calls `wg.Done()` exactly once, as its last effect; its trace
splits into what was done before the exit path (no `wg.Done()`, no release of
the listening socket) and the exit path, which dispatches no alert and is
either the bind-failure line followed by `wg.Done()`, or the line of the
shutdown or error case followed by `listener.Close()` and then `wg.Done()`. -/
theorem startPortListener_exit (marshal : Alert → Except String String)
    (split : String → Except String (String × String))
    (bind : Option String) (events : List SelectEvent) (port : Int) (config : AlertConfig) :
    ((startPortListener marshal split bind events port config).returned =
      (bind.isSome || events.any isExit)) ∧
    ((startPortListener marshal split bind events port config).returned = true →
      (startPortListener marshal split bind events port config).trace.count Effect.wgDone = 1 ∧
      (startPortListener marshal split bind events port config).trace.getLast? =
        some Effect.wgDone ∧
      ∃ pre exitPath : List Effect,
        (startPortListener marshal split bind events port config).trace = pre ++ exitPath ∧
        Effect.wgDone ∉ pre ∧ Effect.listenerClose ∉ pre ∧ alertCalls exitPath = [] ∧
        ((∃ err, bind = some err ∧ pre = [Effect.netListen port] ∧
            exitPath = [Effect.log (LogLine.failedListener port err), Effect.wgDone]) ∨
         (bind = none ∧
          ∃ (cs : List Accepted) (e : SelectEvent) (rest : List SelectEvent),
            events = cs.map SelectEvent.conn ++ e :: rest ∧ isExit e = true ∧
            pre = [Effect.netListen port, Effect.log (LogLine.startedListening port)] ++
              cs.flatMap (acceptBranch marshal split port config) ∧
            exitPath = exitLog port e ++ [Effect.listenerClose, Effect.wgDone]))) := by
  cases bind with
  | some err =>
    refine ⟨by simp [startPortListener], fun _ => ⟨by simp [startPortListener],
      by simp [startPortListener], [Effect.netListen port],
      [Effect.log (LogLine.failedListener port err), Effect.wgDone], ?_⟩⟩
    refine ⟨by simp [startPortListener], by simp, by simp, by simp [alertCalls, asAlertCall], ?_⟩
    exact Or.inl ⟨err, rfl, rfl, rfl⟩
  | none =>
    refine ⟨by simp [startPortListener, listenLoop_returned], fun hret => ?_⟩
    have hloop : (listenLoop marshal split port config events).returned = true := by
      simpa [startPortListener] using hret
    obtain ⟨cs, e, rest, hev, hex, htr⟩ := listenLoop_trace marshal split port config events hloop
    have hpre : Effect.wgDone ∉ cs.flatMap (acceptBranch marshal split port config) ∧
        Effect.listenerClose ∉ cs.flatMap (acceptBranch marshal split port config) := by
      constructor
      · simp only [List.mem_flatMap, not_exists, not_and]
        exact fun c _ => (acceptBranch_no_barrier marshal split port config c).1
      · simp only [List.mem_flatMap, not_exists, not_and]
        exact fun c _ => (acceptBranch_no_barrier marshal split port config c).2
    have hcnt : (cs.flatMap (acceptBranch marshal split port config)).count Effect.wgDone = 0 :=
      List.count_eq_zero.mpr hpre.1
    have htrace : (startPortListener marshal split none events port config).trace =
        ([Effect.netListen port, Effect.log (LogLine.startedListening port)] ++
          cs.flatMap (acceptBranch marshal split port config)) ++
        (exitLog port e ++ [Effect.listenerClose, Effect.wgDone]) := by
      simp [startPortListener, hloop, htr]
    refine ⟨?_, ?_, _, _, htrace, ?_, ?_, ?_, ?_⟩
    · rw [htrace]
      cases e <;> simp [exitLog, List.count_cons, hcnt] at hex ⊢
    · have hsplit : ([Effect.netListen port, Effect.log (LogLine.startedListening port)] ++
            cs.flatMap (acceptBranch marshal split port config)) ++
          (exitLog port e ++ [Effect.listenerClose, Effect.wgDone]) =
          (([Effect.netListen port, Effect.log (LogLine.startedListening port)] ++
            cs.flatMap (acceptBranch marshal split port config)) ++
          (exitLog port e ++ [Effect.listenerClose])) ++ [Effect.wgDone] := by simp
      rw [htrace, hsplit]
      exact List.getLast?_concat _
    · simpa using hpre.1
    · simpa using hpre.2
    · cases e <;> simp [exitLog, alertCalls, asAlertCall] at hex ⊢
    · exact Or.inr ⟨rfl, cs, e, rest, hev, hex, rfl, rfl⟩

/-- Instance for C9: a successful bind on port 22, one
connection, then the shutdown signal. -/
theorem startPortListener_exit_witness :
    (startPortListener (goJsonMarshal sampleEncode) goSplitHostPort none
      [SelectEvent.conn sampleConn, SelectEvent.stop] 22 defaultConfig).trace.count
        Effect.wgDone = 1 ∧
    (startPortListener (goJsonMarshal sampleEncode) goSplitHostPort none
      [SelectEvent.conn sampleConn, SelectEvent.stop] 22 defaultConfig).trace.getLast? =
        some Effect.wgDone :=
  have h := (startPortListener_exit (goJsonMarshal sampleEncode) goSplitHostPort none
    [SelectEvent.conn sampleConn, SelectEvent.stop] 22 defaultConfig).2 (by decide)
  ⟨h.1, h.2.1⟩

/-! ## Configuration -/

/-- C10 (as stated, refuted): loading a configuration file that names no
ports yields the built-in list, and that list has sixteen entries, not
seventeen. -/
theorem defaultPorts_not_seventeen :
    (loadConfig (ConfigFile.parsed zeroConfig)).1.PortsToMonitor = defaultConfig.PortsToMonitor ∧
    len (loadConfig (ConfigFile.parsed zeroConfig)).1.PortsToMonitor = 16 ∧
    ¬ len (loadConfig (ConfigFile.parsed zeroConfig)).1.PortsToMonitor = 17 := by
  decide

/-- C10 (amended): when the parsed configuration has no ports to monitor
(PortsToMonitor nil or empty), `loadConfig` succeeds and replaces it with the
built-in default port list, and that list contains sixteen ports. -/
theorem loadConfig_default_ports (config : AlertConfig)
    (h : config.PortsToMonitor = none ∨ config.PortsToMonitor = some []) :
    (loadConfig (ConfigFile.parsed config)).2 = none ∧
    (loadConfig (ConfigFile.parsed config)).1.PortsToMonitor = defaultConfig.PortsToMonitor ∧
    len defaultConfig.PortsToMonitor = 16 := by
  refine ⟨rfl, ?_, by decide⟩
  rcases h with h | h <;>
    by_cases hf : config.LogFile = "" <;>
    simp [loadConfig, populateDefaults, h, hf, len]

/-- Instance for C10: a configuration with an empty
port list. -/
theorem loadConfig_default_ports_witness :
    (loadConfig (ConfigFile.parsed { zeroConfig with PortsToMonitor := some [] })).2 = none ∧
    (loadConfig (ConfigFile.parsed
      { zeroConfig with PortsToMonitor := some [] })).1.PortsToMonitor =
        defaultConfig.PortsToMonitor ∧
    len defaultConfig.PortsToMonitor = 16 :=
  loadConfig_default_ports { zeroConfig with PortsToMonitor := some [] } (Or.inr rfl)

end Honeypot
